import Mathlib

/-!
Shallow embedding of the configuration-synthesis core of the
`micro-frontend-cli` scaffolding tool, together with proofs about it.

The definitions mirror the TypeScript sources:
* `src/utils/name-sanitizer.ts` — identifier normalizer and validator;
* `src/config/config-generator.ts` — `micro-frontend.config.json` synthesis;
* `src/config/federation-config.ts` — module-federation config helpers;
* `src/utils/package-generator.ts` — `package.json` synthesis;
* `src/generators/host-generator.ts` — target directory derivation;
* `src/generators/monorepo-generator.ts` — nx / turborepo task pipelines;
* `src/templates/webpack.config.template.js` — build-tool configuration
  derived from the persisted configuration file.

JavaScript strings are modelled as `String` (lists of unicode scalars),
records as Lean structures, `Record<string, T>` objects as ordered
association lists `List (String × T)`, and optional JSON keys as `Option`.
-/

namespace MicroFrontend

/-! ## Character classes used by the regexes of `name-sanitizer.ts` -/

/-- The character class of the regex `[-_]` (a separator), by code point. -/
def isSepChar (c : Char) : Bool := c.toNat = 45 || c.toNat = 95

/-- The character class `[a-z]`. -/
def isLowerAZ (c : Char) : Bool := 97 ≤ c.toNat && c.toNat ≤ 122

/-- The character class `[A-Z]`. -/
def isUpperAZ (c : Char) : Bool := 65 ≤ c.toNat && c.toNat ≤ 90

/-- The character class `[0-9]`. -/
def isDigitChar (c : Char) : Bool := 48 ≤ c.toNat && c.toNat ≤ 57

/-- The character class `[a-zA-Z0-9]` (complement of `[^a-zA-Z0-9]`). -/
def isAlnumChar (c : Char) : Bool := isLowerAZ c || isUpperAZ c || isDigitChar c

/-- The character class `[a-zA-Z]`. -/
def isLetterChar (c : Char) : Bool := isLowerAZ c || isUpperAZ c

/-- JavaScript `String.prototype.toUpperCase` restricted to a single
`[a-z]` character: subtract 32 from the code point. -/
def upperOf (c : Char) : Char := Char.ofNat (c.toNat - 32)

/-! ## `name-sanitizer.ts` -/

/-- First step of `sanitizeModuleFederationName`: the global replacement
`.replace(/[-_]([a-z])/g, (_, letter) => letter.toUpperCase())`.
The scan is left to right; on a match both matched characters are consumed
and the upper-cased letter is emitted; on a mismatch one character is
emitted and the scan advances by one. -/
def camelStep : List Char → List Char
  | [] => []
  | [c] => [c]
  | c :: d :: rest =>
    if isSepChar c && isLowerAZ d then upperOf d :: camelStep rest
    else c :: camelStep (d :: rest)

/-- Second step: `.replace(/[^a-zA-Z0-9]/g, '')` — drop every character
outside `[a-zA-Z0-9]`. -/
def stripInvalid (l : List Char) : List Char := l.filter isAlnumChar

/-- Third step: `.replace(/^[0-9]/, '_$&')` — when the first character is a
digit, put an underscore in front of it. -/
def replaceLeadingDigit : List Char → List Char
  | [] => []
  | c :: rest => if isDigitChar c then '_' :: c :: rest else c :: rest

/-- The three replacement steps composed, on lists of characters. -/
def sanitizeList (l : List Char) : List Char :=
  replaceLeadingDigit (stripInvalid (camelStep l))

/-- `sanitizeModuleFederationName` from `src/utils/name-sanitizer.ts`. -/
def sanitizeModuleFederationName (s : String) : String :=
  ⟨sanitizeList s.data⟩

/-- Start-character class of the identifier regex: `[a-zA-Z_$]`. -/
def isIdentStart (c : Char) : Bool := isLetterChar c || c.toNat = 95 || c.toNat = 36

/-- Continuation-character class of the identifier regex: `[a-zA-Z0-9_$]`. -/
def isIdentChar (c : Char) : Bool := isAlnumChar c || c.toNat = 95 || c.toNat = 36

/-- `isValidIdentifier` from `src/utils/name-sanitizer.ts`: the test
`/^[a-zA-Z_$][a-zA-Z0-9_$]*$/.test(name)`. -/
def isValidIdentifier (s : String) : Bool :=
  match s.data with
  | [] => false
  | c :: rest => isIdentStart c && rest.all isIdentChar

/-! ## Shared data model (`src/types/index.ts`, `src/types/config.ts`) -/

/-- The `framework` union type `'react' | 'vue'`. -/
inductive Framework where
  | react
  | vue
deriving DecidableEq, Repr

/-- The `type` union `'host' | 'remote'`. -/
inductive AppType where
  | host
  | remote
deriving DecidableEq, Repr

/-- The `monorepoTool` union `'nx' | 'turborepo' | 'pnpm'`. -/
inductive MonorepoTool where
  | nx
  | turborepo
  | pnpm
deriving DecidableEq, Repr

/-- The `packageManager` union `'npm' | 'yarn' | 'pnpm'`. -/
inductive PackageManager where
  | npm
  | yarn
  | pnpm
deriving DecidableEq, Repr

/-- `SharedDependency` (`src/types/index.ts`): the per-package shared
policy attributes. The generators always populate all four fields. -/
structure SharedDependency where
  singleton : Bool
  requiredVersion : String
  strictVersion : Bool
  eager : Bool
deriving DecidableEq, Repr

/-- One element of the `remotes` array written into
`micro-frontend.config.json`: `{name, url, entry}`. -/
structure RemoteEntry where
  name : String
  url : String
  entry : String
deriving DecidableEq, Repr

/-- The `build` block `{outputPath, publicPath}`. -/
structure BuildConfig where
  outputPath : String
  publicPath : String
deriving DecidableEq, Repr

/-- The `devServer` block `{hot, historyApiFallback, cors}`. -/
structure DevServerConfig where
  hot : Bool
  historyApiFallback : Bool
  cors : Bool
deriving DecidableEq, Repr

/-- `RemoteReference` (`src/types/index.ts`): `{name, url}` as supplied
by the caller of the host generator. -/
structure RemoteReference where
  name : String
  url : String
deriving DecidableEq, Repr

/-- `MicroFrontendConfig` (`src/types/config.ts`): the persisted
`micro-frontend.config.json` record. Optional JSON keys are `Option`;
`none` models an absent key. -/
structure MicroFrontendConfig where
  name : String
  type : AppType
  port : Nat
  framework : Framework
  exposes : Option (List (String × String))
  remotes : Option (List RemoteEntry)
  shared : Option (List (String × SharedDependency))
  build : Option BuildConfig
  devServer : Option DevServerConfig
deriving DecidableEq, Repr

/-- `ProjectConfig` (`src/types/index.ts`): the validated user intent. -/
structure ProjectConfig where
  type : AppType
  name : String
  port : Nat
  framework : Framework
  typescript : Bool
  isMonorepo : Bool
  monorepoTool : Option MonorepoTool
  packageManager : PackageManager
deriving DecidableEq, Repr

/-! ## `src/config/config-generator.ts` -/

/-- `generateSharedConfig` (private helper of `config-generator.ts`):
the shared-dependency policy as a function of the framework. -/
def generateSharedConfig : Framework → List (String × SharedDependency)
  | .react =>
    [("react", ⟨true, "^18.0.0", false, false⟩),
     ("react-dom", ⟨true, "^18.0.0", false, false⟩)]
  | .vue =>
    [("vue", ⟨true, "^3.0.0", false, false⟩)]

/-- `generateHostConfig` from `src/config/config-generator.ts`. The name
is normalized; each remote reference is copied with `entry` set to
`remoteEntry.js`; there is no `exposes` key. -/
def generateHostConfig (name : String) (port : Nat) (framework : Framework)
    (remotes : List RemoteReference) : MicroFrontendConfig :=
  { name := sanitizeModuleFederationName name
    type := .host
    port := port
    framework := framework
    exposes := none
    remotes := some (remotes.map fun r => { name := r.name, url := r.url, entry := "remoteEntry.js" })
    shared := some (generateSharedConfig framework)
    build := some { outputPath := "dist", publicPath := "auto" }
    devServer := some { hot := true, historyApiFallback := true, cors := true } }

/-- The TypeScript default value of the `exposes` parameter of
`generateRemoteConfig`: `{ './App': './src/App' }`. A caller that omits
the argument supplies this map. -/
def defaultExposes : List (String × String) := [("./App", "./src/App")]

/-- `generateRemoteConfig` from `src/config/config-generator.ts`. The
supplied `exposes` map is stored as-is; there is no `remotes` key. -/
def generateRemoteConfig (name : String) (port : Nat) (framework : Framework)
    (exposes : List (String × String)) : MicroFrontendConfig :=
  { name := sanitizeModuleFederationName name
    type := .remote
    port := port
    framework := framework
    exposes := some exposes
    remotes := none
    shared := some (generateSharedConfig framework)
    build := some { outputPath := "dist", publicPath := "auto" }
    devServer := some { hot := true, historyApiFallback := true, cors := true } }

/-! ## `src/config/federation-config.ts` -/

/-- `getSharedDependencies` from `src/config/federation-config.ts`
(an independent copy of the shared-dependency policy). -/
def getSharedDependencies : Framework → List (String × SharedDependency)
  | .react =>
    [("react", ⟨true, "^18.0.0", false, false⟩),
     ("react-dom", ⟨true, "^18.0.0", false, false⟩)]
  | .vue =>
    [("vue", ⟨true, "^3.0.0", false, false⟩)]

/-! ## `src/templates/webpack.config.template.js` -/

/-- The `ModuleFederationPlugin` argument built by the webpack template. -/
structure WebpackFederationConfig where
  name : String
  filename : String
  exposes : Option (List (String × String))
  remotes : Option (List (String × String))
  shared : List (String × SharedDependency)
deriving DecidableEq, Repr

/-- The `remotes` object built by the template: for a host with a
`remotes` key, each entry `remote` contributes
`remotes[remote.name] = remote.name + "@" + remote.url`. -/
def buildWebpackRemotes (cfg : MicroFrontendConfig) : List (String × String) :=
  match cfg.type, cfg.remotes with
  | .host, some rs => rs.map fun r => (r.name, r.name ++ "@" ++ r.url)
  | _, _ => []

/-- `moduleFederationConfig` from the webpack template: `exposes` is
spread in only for a remote whose config carries the key, `remotes` only
for a host when the built object is non-empty, and `shared` is
`mfConfig.shared || {}`. -/
def moduleFederationConfig (cfg : MicroFrontendConfig) : WebpackFederationConfig :=
  let remotes := buildWebpackRemotes cfg
  { name := cfg.name
    filename := "remoteEntry.js"
    exposes :=
      match cfg.type, cfg.exposes with
      | .remote, some e => some e
      | _, _ => none
    remotes := if cfg.type = .host ∧ 0 < remotes.length then some remotes else none
    shared := cfg.shared.getD [] }

/-! ## `src/utils/package-generator.ts` -/

/-- The `package.json` record produced by `generatePackageJson`.
`private` is a Lean keyword, so the field is called `privateFlag`. -/
structure PackageJson where
  name : String
  version : String
  description : String
  privateFlag : Bool
  scripts : List (String × String)
  dependencies : List (String × String)
  devDependencies : List (String × String)
deriving DecidableEq, Repr

/-- `getDependencies` from `src/utils/package-generator.ts`. -/
def getDependencies (config : ProjectConfig) : List (String × String) :=
  match config.framework with
  | .react => [("react", "^18.2.0"), ("react-dom", "^18.2.0")]
  | .vue => [("vue", "^3.4.0")]

/-- `getDevDependencies` from `src/utils/package-generator.ts`: a fixed
base object, then TypeScript extras (plus React type stubs), then Vue
loader extras, in insertion order. -/
def getDevDependencies (config : ProjectConfig) : List (String × String) :=
  [("webpack", "^5.89.0"), ("webpack-cli", "^5.1.4"),
   ("webpack-dev-server", "^4.15.1"), ("html-webpack-plugin", "^5.6.0"),
   ("babel-loader", "^9.1.3"), ("@babel/core", "^7.23.7"),
   ("@babel/preset-env", "^7.23.7"), ("@babel/preset-react", "^7.23.3"),
   ("style-loader", "^3.3.4"), ("css-loader", "^6.9.0")]
  ++ (if config.typescript then
        [("typescript", "^5.3.3"), ("@babel/preset-typescript", "^7.23.3"),
         ("fork-ts-checker-webpack-plugin", "^9.0.2")]
        ++ (if config.framework = .react then
              [("@types/react", "^18.2.48"), ("@types/react-dom", "^18.2.18")]
            else [])
      else [])
  ++ (if config.framework = .vue then
        [("vue-loader", "^17.4.2"), ("@vue/compiler-sfc", "^3.4.0")]
      else [])

/-- `generatePackageJson` from `src/utils/package-generator.ts`. The
`name` field is the raw `config.name`, not the sanitized identifier. -/
def generatePackageJson (config : ProjectConfig) (type : AppType) : PackageJson :=
  { name := config.name
    version := "1.0.0"
    description := (if type = .host then "Host" else "Remote") ++ " application for micro-frontend"
    privateFlag := true
    scripts :=
      [("start", "webpack serve --open"), ("dev", "webpack serve"),
       ("build", "webpack --mode production"), ("clean", "rm -rf dist")]
    dependencies := getDependencies config
    devDependencies := getDevDependencies config }

/-! ## `src/generators/host-generator.ts` -/

/-- The target directory of `generateHostApp`:
`path.join(process.cwd(), config.name)`, modelled for a `cwd` without a
trailing separator. The joined component is the raw `config.name`. -/
def generateHostAppProjectPath (cwd : String) (config : ProjectConfig) : String :=
  cwd ++ "/" ++ config.name

/-! ## `src/generators/monorepo-generator.ts` -/

/-- One entry of `nx.json`'s `targetDefaults`: the emitted objects carry
only `dependsOn` and/or `outputs` keys (no cache or persistence marks). -/
structure NxTargetDefault where
  dependsOn : Option (List String)
  outputs : Option (List String)
deriving DecidableEq, Repr

/-- The `options` object of an nx tasks runner. -/
structure NxRunnerOptions where
  cacheableOperations : List String
deriving DecidableEq, Repr

/-- One entry of `nx.json`'s `tasksRunnerOptions`. -/
structure NxTasksRunner where
  runner : String
  options : NxRunnerOptions
deriving DecidableEq, Repr

/-- The `nx.json` object. The JSON key `extends` is a Lean keyword, so
the field is called `extendsPreset`. -/
structure NxConfig where
  extendsPreset : String
  tasksRunnerOptions : List (String × NxTasksRunner)
  targetDefaults : List (String × NxTargetDefault)
deriving DecidableEq, Repr

/-- The `nx.json` content written by `generateNxWorkspace`
(`src/generators/monorepo-generator.ts`). -/
def generateNxWorkspace : NxConfig :=
  { extendsPreset := "nx/presets/npm.json"
    tasksRunnerOptions :=
      [("default",
        { runner := "nx/tasks-runners/default"
          options := { cacheableOperations := ["build", "test", "lint"] } })]
    targetDefaults :=
      [("build", { dependsOn := some ["^build"], outputs := some ["{projectRoot}/dist"] }),
       ("dev", { dependsOn := some ["^build"], outputs := none })] }

/-- One entry of `turbo.json`'s `pipeline`. -/
structure TurboTask where
  dependsOn : Option (List String)
  outputs : Option (List String)
  cache : Option Bool
  persistent : Option Bool
deriving DecidableEq, Repr

/-- The `turbo.json` object. The JSON key is `$schema`. -/
structure TurboConfig where
  schema : String
  pipeline : List (String × TurboTask)
deriving DecidableEq, Repr

/-- The `turbo.json` content written by `generateTurborepoConfig`
(`src/generators/monorepo-generator.ts`). -/
def generateTurborepoConfig : TurboConfig :=
  { schema := "https://turbo.build/schema.json"
    pipeline :=
      [("build",
        { dependsOn := some ["^build"], outputs := some ["dist/**"],
          cache := none, persistent := none }),
       ("dev",
        { dependsOn := none, outputs := none,
          cache := some false, persistent := some true }),
       ("clean",
        { dependsOn := none, outputs := none,
          cache := some false, persistent := none })] }

/-! ## Helper lemmas about the character classes -/

theorem toNat_upperOf {c : Char} (h : isLowerAZ c = true) :
    (upperOf c).toNat = c.toNat - 32 := by
  simp only [isLowerAZ, Bool.and_eq_true, decide_eq_true_eq] at h
  have hv : (c.toNat - 32).isValidChar := Or.inl (by omega)
  rw [upperOf, Char.ofNat, dif_pos hv]
  rfl

theorem isLetterChar_upperOf {c : Char} (h : isLowerAZ c = true) :
    isLetterChar (upperOf c) = true := by
  have ht := toNat_upperOf h
  simp only [isLowerAZ, Bool.and_eq_true, decide_eq_true_eq] at h
  simp only [isLetterChar, isLowerAZ, isUpperAZ, ht, Bool.or_eq_true, Bool.and_eq_true,
    decide_eq_true_eq]
  omega

theorem isAlnumChar_of_letter {c : Char} (h : isLetterChar c = true) :
    isAlnumChar c = true := by
  simp only [isLetterChar, Bool.or_eq_true] at h
  simp only [isAlnumChar, Bool.or_eq_true]
  tauto

theorem isSepChar_eq_false_of_alnum {c : Char} (h : isAlnumChar c = true) :
    isSepChar c = false := by
  simp only [isAlnumChar, isLowerAZ, isUpperAZ, isDigitChar, Bool.or_eq_true,
    Bool.and_eq_true, decide_eq_true_eq] at h
  simp only [isSepChar, Bool.or_eq_false_iff, decide_eq_false_iff_not]
  omega

theorem isLowerAZ_eq_false_of_digit {c : Char} (h : isDigitChar c = true) :
    isLowerAZ c = false := by
  simp only [isDigitChar, Bool.and_eq_true, decide_eq_true_eq] at h
  simp only [isLowerAZ, Bool.and_eq_false_iff, decide_eq_false_iff_not]
  omega

theorem isLetterChar_of_alnum_not_digit {c : Char} (h : isAlnumChar c = true)
    (hd : isDigitChar c = false) : isLetterChar c = true := by
  simp only [isAlnumChar, isLowerAZ, isUpperAZ, isDigitChar, Bool.or_eq_true,
    Bool.and_eq_true, decide_eq_true_eq] at h
  simp only [isDigitChar, Bool.and_eq_false_iff, decide_eq_false_iff_not] at hd
  simp only [isLetterChar, isLowerAZ, isUpperAZ, Bool.or_eq_true, Bool.and_eq_true,
    decide_eq_true_eq]
  omega

theorem isIdentChar_of_alnum {c : Char} (h : isAlnumChar c = true) :
    isIdentChar c = true := by
  simp only [isIdentChar, h, Bool.true_or]

theorem isIdentStart_of_letter {c : Char} (h : isLetterChar c = true) :
    isIdentStart c = true := by
  simp only [isIdentStart, h, Bool.true_or]

theorem isAlnumChar_dash : isAlnumChar '-' = false := by decide

theorem isAlnumChar_underscore : isAlnumChar '_' = false := by decide

/-! ## Helper lemmas about the sanitizer steps -/

theorem camelStep_eq_self : ∀ l : List Char, l.all isAlnumChar = true → camelStep l = l := by
  intro l
  induction l using camelStep.induct with
  | case1 =>
    intro _
    rfl
  | case2 c =>
    intro _
    rfl
  | case3 c d rest hcond ih =>
    intro h
    simp only [List.all_cons, Bool.and_eq_true] at h
    rw [isSepChar_eq_false_of_alnum h.1] at hcond
    simp at hcond
  | case4 c d rest hcond ih =>
    intro h
    simp only [List.all_cons, Bool.and_eq_true] at h
    have h' : (d :: rest).all isAlnumChar = true := by
      simp only [List.all_cons, Bool.and_eq_true]
      exact h.2
    rw [camelStep, if_neg hcond, ih h']

theorem camelStep_any_letter :
    ∀ l : List Char, l.any isLetterChar = true → (camelStep l).any isLetterChar = true := by
  intro l
  induction l using camelStep.induct with
  | case1 =>
    intro h
    simp at h
  | case2 c =>
    intro h
    simpa [camelStep] using h
  | case3 c d rest hcond ih =>
    intro _
    simp only [Bool.and_eq_true] at hcond
    rw [camelStep, if_pos (by simp [hcond.1, hcond.2])]
    simp [isLetterChar_upperOf hcond.2]
  | case4 c d rest hcond ih =>
    intro h
    rw [camelStep, if_neg hcond]
    simp only [List.any_cons, Bool.or_eq_true] at h ⊢
    rcases h with h | h
    · exact Or.inl h
    · exact Or.inr (by simpa using ih (by simpa using h))

theorem stripInvalid_all (l : List Char) : (stripInvalid l).all isAlnumChar = true := by
  simp only [stripInvalid, List.all_eq_true]
  intro c hc
  exact (List.mem_filter.mp hc).2

theorem stripInvalid_eq_self {l : List Char} (h : l.all isAlnumChar = true) :
    stripInvalid l = l := by
  apply List.filter_eq_self.mpr
  intro c hc
  exact (List.all_eq_true.mp h) c hc

theorem stripInvalid_any_letter {l : List Char} (h : l.any isLetterChar = true) :
    (stripInvalid l).any isLetterChar = true := by
  rw [List.any_eq_true] at h ⊢
  obtain ⟨c, hc, hlet⟩ := h
  exact ⟨c, List.mem_filter.mpr ⟨hc, isAlnumChar_of_letter hlet⟩, hlet⟩

theorem sanitizeList_idem (l : List Char) : sanitizeList (sanitizeList l) = sanitizeList l := by
  have hall := stripInvalid_all (camelStep l)
  unfold sanitizeList
  cases hM : stripInvalid (camelStep l) with
  | nil => rfl
  | cons c rest =>
    rw [hM] at hall
    simp only [List.all_cons, Bool.and_eq_true] at hall
    obtain ⟨hc, hrest⟩ := hall
    have hallm : (c :: rest).all isAlnumChar = true := by
      simp only [List.all_cons, Bool.and_eq_true]
      exact ⟨hc, hrest⟩
    by_cases hd : isDigitChar c = true
    · rw [replaceLeadingDigit, if_pos hd]
      have h1 : camelStep ('_' :: c :: rest) = '_' :: camelStep (c :: rest) := by
        rw [camelStep, if_neg]
        rw [isLowerAZ_eq_false_of_digit hd]
        simp
      rw [h1, camelStep_eq_self _ hallm]
      have h3 : stripInvalid ('_' :: c :: rest) = c :: rest := by
        rw [stripInvalid, List.filter_cons_of_neg (by simp [isAlnumChar_underscore])]
        exact stripInvalid_eq_self hallm
      rw [h3, replaceLeadingDigit, if_pos hd]
    · have hd' : isDigitChar c = false := by simpa using hd
      rw [replaceLeadingDigit, if_neg (by simp [hd'])]
      rw [camelStep_eq_self _ hallm, stripInvalid_eq_self hallm,
        replaceLeadingDigit, if_neg (by simp [hd'])]

theorem mem_sanitizeList {l : List Char} {c : Char} (h : c ∈ sanitizeList l) :
    isAlnumChar c = true ∨ c = '_' := by
  have hall := stripInvalid_all (camelStep l)
  rw [sanitizeList] at h
  cases hM : stripInvalid (camelStep l) with
  | nil =>
    rw [hM] at h
    simp [replaceLeadingDigit] at h
  | cons a rest =>
    rw [hM] at h hall
    rw [replaceLeadingDigit] at h
    by_cases hd : isDigitChar a = true
    · rw [if_pos hd] at h
      rcases List.mem_cons.mp h with h | h
      · exact Or.inr h
      · exact Or.inl ((List.all_eq_true.mp hall) c h)
    · rw [if_neg hd] at h
      exact Or.inl ((List.all_eq_true.mp hall) c h)

theorem dash_not_mem_sanitize (x : String) :
    '-' ∉ (sanitizeModuleFederationName x).data := by
  intro hmem
  rcases mem_sanitizeList (l := x.data) hmem with h | h
  · rw [isAlnumChar_dash] at h
    exact Bool.false_ne_true h
  · exact absurd h (by decide)

/-! ## Claim theorems -/

/-- Claim C1, counterexample: `generateHostConfig` does not fail on a
remote named `bad-name`; it returns a complete descriptor carrying that
remote even though the name fails the identifier predicate. -/
theorem hostConfig_accepts_bad_name :
    (generateHostConfig "shop" 3000 .react
        [{ name := "bad-name", url := "http://localhost:3001/remoteEntry.js" }]).remotes
      = some [{ name := "bad-name", url := "http://localhost:3001/remoteEntry.js",
                entry := "remoteEntry.js" }] ∧
    isValidIdentifier "bad-name" = false :=
  ⟨rfl, by decide⟩

/-- Claim C1, amended: host synthesis performs no validation of remote
names and never fails: for every remotes list, `generateHostConfig`
returns a descriptor whose `remotes` field copies each reference's name
and url unchanged with `entry = "remoteEntry.js"`, and whose `exposes`
key is absent — even when some remote's name fails `isValidIdentifier`. -/
theorem generateHostConfig_no_validation (name : String) (port : Nat) (fw : Framework)
    (remotes : List RemoteReference) :
    (generateHostConfig name port fw remotes).remotes
      = some (remotes.map fun r => { name := r.name, url := r.url, entry := "remoteEntry.js" }) ∧
    (generateHostConfig name port fw remotes).exposes = none :=
  ⟨rfl, rfl⟩

/-- Claim C2, counterexample: `sanitizeModuleFederationName` is not a
no-op on `user_service`; the underscore separator is camel-cased away. -/
theorem sanitize_underscore_not_noop :
    sanitizeModuleFederationName "user_service" = "userService" ∧
    sanitizeModuleFederationName "user_service" ≠ "user_service" :=
  ⟨by decide, by decide⟩

/-- Claim C2, amended: the normalizer maps `my-remote-app` to
`myRemoteApp` and `2fast` to `_2fast` as claimed, but it maps
`user_service` to `userService`: a single underscore followed by a
lowercase letter is a camel-casing separator, not a no-op. -/
theorem sanitize_concrete_examples :
    sanitizeModuleFederationName "my-remote-app" = "myRemoteApp" ∧
    sanitizeModuleFederationName "user_service" = "userService" ∧
    sanitizeModuleFederationName "2fast" = "_2fast" :=
  ⟨by decide, by decide, by decide⟩

/-- Claim C3, counterexample: remote synthesis does not force the default
entry into a supplied exposes map: passing a map without `./App` yields a
configuration whose exposes map has no `./App` entry. -/
theorem remoteConfig_omits_default_expose :
    (generateRemoteConfig "widgets" 3001 .react [("./Widget", "./src/Widget")]).exposes
      = some [("./Widget", "./src/Widget")] ∧
    (("./App", "./src/App") ∈ [(("./Widget" : String), ("./src/Widget" : String))]) = False :=
  ⟨rfl, by simp⟩

/-- Claim C3, amended: `generateRemoteConfig` stores the supplied exposes
map unchanged (the default entry `./App -> ./src/App` is only the default
argument used when the caller supplies no map); when the default map is
supplied the result's exposes is exactly that single entry, and the
`remotes` key is always absent. -/
theorem generateRemoteConfig_exposes_passthrough (name : String) (port : Nat)
    (fw : Framework) (exposes : List (String × String)) :
    (generateRemoteConfig name port fw exposes).exposes = some exposes ∧
    (generateRemoteConfig name port fw exposes).remotes = none ∧
    (generateRemoteConfig name port fw defaultExposes).exposes
      = some [("./App", "./src/App")] :=
  ⟨rfl, rfl, rfl⟩

/-- Claim C4: the shared-dependency policy is a function of the framework
alone; for react it is exactly the two entries `react` and `react-dom`,
each `{singleton := true, requiredVersion := "^18.0.0",
strictVersion := false, eager := false}`, and for vue exactly the single
entry `vue` with `requiredVersion = "^3.0.0"` and the same flags. -/
theorem generateSharedConfig_policy :
    generateSharedConfig .react
      = [("react", { singleton := true, requiredVersion := "^18.0.0",
                     strictVersion := false, eager := false }),
         ("react-dom", { singleton := true, requiredVersion := "^18.0.0",
                         strictVersion := false, eager := false })] ∧
    generateSharedConfig .vue
      = [("vue", { singleton := true, requiredVersion := "^3.0.0",
                   strictVersion := false, eager := false })] :=
  ⟨rfl, rfl⟩

/-- Claim C5: the identifier normalizer is idempotent — applying
`sanitizeModuleFederationName` twice gives the same result as once, for
every string. -/
theorem sanitize_idempotent (x : String) :
    sanitizeModuleFederationName (sanitizeModuleFederationName x)
      = sanitizeModuleFederationName x :=
  congrArg String.mk (sanitizeList_idem x.data)

/-- Claim C6: for every non-empty string containing at least one ASCII
letter, the normalized result is non-empty, satisfies the identifier
grammar checked by `isValidIdentifier`, and consists only of letters and
digits apart from a possible leading underscore. -/
theorem sanitize_produces_valid_identifier (x : String) (h1 : x ≠ "")
    (h2 : x.data.any isLetterChar = true) :
    sanitizeModuleFederationName x ≠ "" ∧
    isValidIdentifier (sanitizeModuleFederationName x) = true ∧
    ((sanitizeModuleFederationName x).data.all fun c => isAlnumChar c || c == '_') = true ∧
    ((sanitizeModuleFederationName x).data.drop 1).all isAlnumChar = true := by
  have hl := stripInvalid_any_letter (camelStep_any_letter x.data h2)
  have hall := stripInvalid_all (camelStep x.data)
  cases hM : stripInvalid (camelStep x.data) with
  | nil =>
    rw [hM] at hl
    simp at hl
  | cons c rest =>
    rw [hM] at hl hall
    have hdata : (sanitizeModuleFederationName x).data = replaceLeadingDigit (c :: rest) := by
      show sanitizeList x.data = _
      rw [sanitizeList, hM]
    simp only [List.all_cons, Bool.and_eq_true] at hall
    obtain ⟨hc, hrest⟩ := hall
    have hallm : (c :: rest).all isAlnumChar = true := by
      simp only [List.all_cons, Bool.and_eq_true]
      exact ⟨hc, hrest⟩
    have hident : (c :: rest).all isIdentChar = true := by
      rw [List.all_eq_true] at hallm ⊢
      intro a ha
      exact isIdentChar_of_alnum (hallm a ha)
    have hmix : ((c :: rest).all fun a => isAlnumChar a || a == '_') = true := by
      rw [List.all_eq_true] at hallm ⊢
      intro a ha
      simp [hallm a ha]
    by_cases hd : isDigitChar c = true
    · have hdata2 : (sanitizeModuleFederationName x).data = '_' :: c :: rest := by
        rw [hdata, replaceLeadingDigit, if_pos hd]
      refine ⟨?_, ?_, ?_, ?_⟩
      · intro he
        have : (sanitizeModuleFederationName x).data = [] := by
          rw [he]
        rw [hdata2] at this
        exact List.cons_ne_nil _ _ this
      · simp only [isValidIdentifier, hdata2, List.all_cons, Bool.and_eq_true]
        refine ⟨by decide, ?_, ?_⟩
        · simp only [List.all_cons, Bool.and_eq_true] at hident
          exact hident.1
        · simp only [List.all_cons, Bool.and_eq_true] at hident
          exact hident.2
      · rw [hdata2]
        simp only [List.all_cons, Bool.and_eq_true]
        simp only [List.all_cons, Bool.and_eq_true] at hmix
        exact ⟨by decide, hmix.1, hmix.2⟩
      · rw [hdata2]
        simpa using hallm
    · have hd' : isDigitChar c = false := by simpa using hd
      have hdata2 : (sanitizeModuleFederationName x).data = c :: rest := by
        rw [hdata, replaceLeadingDigit, if_neg (by simp [hd'])]
      refine ⟨?_, ?_, ?_, ?_⟩
      · intro he
        have : (sanitizeModuleFederationName x).data = [] := by
          rw [he]
        rw [hdata2] at this
        exact List.cons_ne_nil _ _ this
      · simp only [isValidIdentifier, hdata2, Bool.and_eq_true]
        refine ⟨?_, ?_⟩
        · exact isIdentStart_of_letter (isLetterChar_of_alnum_not_digit hc hd')
        · simp only [List.all_cons, Bool.and_eq_true] at hident
          exact hident.2
      · rw [hdata2]
        exact hmix
      · rw [hdata2]
        simpa using hrest

/-- Claim C6 witness: instantiation at the concrete input
`my-remote-app`. -/
theorem sanitize_produces_valid_identifier_witness :
    sanitizeModuleFederationName "my-remote-app" ≠ "" ∧
    isValidIdentifier (sanitizeModuleFederationName "my-remote-app") = true ∧
    ((sanitizeModuleFederationName "my-remote-app").data.all
      fun c => isAlnumChar c || c == '_') = true ∧
    ((sanitizeModuleFederationName "my-remote-app").data.drop 1).all isAlnumChar = true :=
  sanitize_produces_valid_identifier "my-remote-app" (by decide) (by decide)

/-- Claim C7: the webpack template translates the persisted configuration
faithfully — for a host, each entry of the `remotes` list becomes the
federation reference `name@url` keyed by the remote's name; for a remote,
the `exposes` map is passed through unchanged; and the `shared` map is
passed through unchanged. -/
theorem webpack_config_translation (cfg : MicroFrontendConfig) :
    (∀ rs, cfg.type = .host → cfg.remotes = some rs →
      (moduleFederationConfig cfg).remotes.getD []
        = rs.map fun r => (r.name, r.name ++ "@" ++ r.url)) ∧
    (∀ e, cfg.type = .remote → cfg.exposes = some e →
      (moduleFederationConfig cfg).exposes = some e) ∧
    (∀ s, cfg.shared = some s → (moduleFederationConfig cfg).shared = s) := by
  refine ⟨?_, ?_, ?_⟩
  · intro rs h1 h2
    simp only [moduleFederationConfig, buildWebpackRemotes, h1, h2]
    cases rs with
    | nil => simp
    | cons a l => simp
  · intro e h1 h2
    simp only [moduleFederationConfig, h1, h2]
  · intro s h
    simp only [moduleFederationConfig, h, Option.getD_some]

/-- Claim C7 witness: instantiation at a concrete host configuration and
a concrete remote configuration. -/
theorem webpack_config_translation_witness :
    (moduleFederationConfig (generateHostConfig "shop" 3000 .react
        [{ name := "products", url := "http://localhost:3001/remoteEntry.js" }])).remotes.getD []
      = [("products", "products@http://localhost:3001/remoteEntry.js")] ∧
    (moduleFederationConfig (generateRemoteConfig "widgets" 3001 .vue defaultExposes)).exposes
      = some [("./App", "./src/App")] ∧
    (moduleFederationConfig (generateRemoteConfig "widgets" 3001 .vue defaultExposes)).shared
      = generateSharedConfig .vue := by
  refine ⟨?_, ?_, ?_⟩
  · exact ((webpack_config_translation _).1 _ rfl rfl).trans (by decide)
  · exact (webpack_config_translation _).2.1 _ rfl rfl
  · exact (webpack_config_translation _).2.2 _ rfl

/-- Claim C8, counterexample: the emitted nx workspace configuration does
not match the claimed task pipeline — its target defaults define no
`clean` task at all, and its `dev` entry carries only a dependency on
upstream `build` tasks, with no non-cacheable or persistent marking (the
emitted object has no such keys). -/
theorem nx_pipeline_counterexample :
    generateNxWorkspace.targetDefaults.lookup "clean" = none ∧
    generateNxWorkspace.targetDefaults.lookup "dev"
      = some { dependsOn := some ["^build"], outputs := none } :=
  ⟨by decide, by decide⟩

/-- Claim C8, amended: for turborepo the pipeline is as claimed (`build`
depends on `^build` and caches `dist/**`; `dev` has `cache := false` and
`persistent := true`; `clean` has `cache := false` and no dependsOn).
For nx, only the build part holds (`build` depends on `^build`, caches
`{projectRoot}/dist`, and is listed among the cacheable operations
together with `test` and `lint`, so `dev` and `clean` are not cacheable);
but nx's `dev` target additionally depends on `^build` and carries no
persistent marking, and no `clean` target is configured. -/
theorem task_pipeline_amended :
    generateTurborepoConfig.pipeline.lookup "build"
      = some { dependsOn := some ["^build"], outputs := some ["dist/**"],
               cache := none, persistent := none } ∧
    generateTurborepoConfig.pipeline.lookup "dev"
      = some { dependsOn := none, outputs := none,
               cache := some false, persistent := some true } ∧
    generateTurborepoConfig.pipeline.lookup "clean"
      = some { dependsOn := none, outputs := none,
               cache := some false, persistent := none } ∧
    generateNxWorkspace.targetDefaults.lookup "build"
      = some { dependsOn := some ["^build"], outputs := some ["{projectRoot}/dist"] } ∧
    generateNxWorkspace.tasksRunnerOptions.lookup "default"
      = some { runner := "nx/tasks-runners/default",
               options := { cacheableOperations := ["build", "test", "lint"] } } ∧
    generateNxWorkspace.targetDefaults.lookup "dev"
      = some { dependsOn := some ["^build"], outputs := none } ∧
    generateNxWorkspace.targetDefaults.lookup "clean" = none := by
  refine ⟨by decide, by decide, by decide, by decide, by decide, by decide, by decide⟩

/-- Claim C9: only the persisted federation configuration's `name` field
is normalized; the package manifest's `name` and the target directory use
the raw configured name, so for a raw name containing a hyphen the
federation identifier differs from both. -/
theorem only_federation_name_normalized (config : ProjectConfig) (port : Nat)
    (fw : Framework) (remotes : List RemoteReference) (t : AppType) (cwd : String)
    (h : '-' ∈ config.name.data) :
    (generateHostConfig config.name port fw remotes).name
      = sanitizeModuleFederationName config.name ∧
    (generatePackageJson config t).name = config.name ∧
    generateHostAppProjectPath cwd config = cwd ++ "/" ++ config.name ∧
    (generateHostConfig config.name port fw remotes).name ≠ config.name := by
  refine ⟨rfl, rfl, rfl, ?_⟩
  intro he
  have he' : sanitizeModuleFederationName config.name = config.name := he
  apply dash_not_mem_sanitize config.name
  rw [he']
  exact h

/-- Claim C9 witness: instantiation at a concrete project configuration
named `my-app`. -/
theorem only_federation_name_normalized_witness :
    (generateHostConfig "my-app" 3000 .react []).name
      = sanitizeModuleFederationName "my-app" ∧
    (generatePackageJson
        { type := .host, name := "my-app", port := 3000, framework := .react,
          typescript := true, isMonorepo := false, monorepoTool := none,
          packageManager := .pnpm } .host).name = "my-app" ∧
    generateHostAppProjectPath "/work"
        { type := .host, name := "my-app", port := 3000, framework := .react,
          typescript := true, isMonorepo := false, monorepoTool := none,
          packageManager := .pnpm } = "/work" ++ "/" ++ "my-app" ∧
    (generateHostConfig "my-app" 3000 .react []).name ≠ "my-app" :=
  only_federation_name_normalized
    { type := .host, name := "my-app", port := 3000, framework := .react,
      typescript := true, isMonorepo := false, monorepoTool := none,
      packageManager := .pnpm } 3000 .react [] .host "/work" (by decide)

/-- Claim C10: the two independent implementations of the
shared-dependency policy, `getSharedDependencies` in the
federation-config module and `generateSharedConfig` in the
config-generator module, are extensionally equal. -/
theorem shared_policy_implementations_agree (fw : Framework) :
    getSharedDependencies fw = generateSharedConfig fw := by
  cases fw with
  | react => rfl
  | vue => rfl

end MicroFrontend
